import Mathlib

/- Verification development for the AI receipt checker
   (src/backend/telebirr.py and src/backend/bot.py).

   Python strings are modelled as `List Char`; the helper functions
   below embed the Python string primitives the code uses
   (str.strip, str.split, str.replace, str.find, `in`, str.format,
   str.upper, str.lower).  The HTTP layer is modelled as an oracle
   from request URLs to responses, where a raised
   requests.exceptions.RequestException is one possible result. -/

namespace ReceiptChecker

/-- Whitespace as recognised by Python's str.strip and str.split
(the ASCII cases: space, tab, newline, carriage return, vertical tab,
form feed). -/
def pyIsSpace (c : Char) : Bool :=
  c = ' ' || c = '\t' || c = '\n' || c = '\r' || c = Char.ofNat 11 || c = Char.ofNat 12

/-- Embedding of Python's str.strip(): drop leading and trailing
whitespace. -/
def pyStrip (l : List Char) : List Char :=
  ((l.dropWhile pyIsSpace).reverse.dropWhile pyIsSpace).reverse

/-- Helper for `pySplit`: walks the string keeping the (reversed)
current run of non-space characters in `acc`. -/
def splitAux : List Char → List Char → List (List Char)
  | [], acc => if acc = [] then [] else [acc.reverse]
  | c :: rest, acc =>
    if pyIsSpace c then
      if acc = [] then splitAux rest []
      else acc.reverse :: splitAux rest []
    else splitAux rest (c :: acc)

/-- Embedding of Python's str.split() with no argument: the maximal
runs of non-whitespace characters, in order. -/
def pySplit (l : List Char) : List (List Char) :=
  splitAux l []

/-- Embedding of Python's str.replace(a, b) for single characters
(replace every occurrence). -/
def pyReplaceChar (a b : Char) (l : List Char) : List Char :=
  l.map (fun c => if c = a then b else c)

/-- Embedding of Python's str.replace(c, "") for a single character:
remove every occurrence. -/
def pyRemoveColons (l : List Char) : List Char :=
  l.filter (fun c => c != ':')

/-- Embedding of Python's str.find: index of the first occurrence of
`pat` in the string, `none` where Python returns -1.  Python's
`pat in s` is `(findSub pat s).isSome`. -/
def findSub (pat : List Char) : List Char → Option Nat
  | [] => if pat = [] then some 0 else none
  | c :: rest =>
    if pat.isPrefixOf (c :: rest) then some 0
    else (findSub pat rest).map (· + 1)

/-- Embedding of Python's `pat in s` substring test. -/
def pyContains (s pat : List Char) : Bool :=
  (findSub pat s).isSome

/-- The opening-brace character of a str.format replacement field. -/
def lbrace : Char := Char.ofNat 123

/-- The closing-brace character of a str.format replacement field. -/
def rbrace : Char := Char.ofNat 125

/-- Embedding of Python's template.format(arg) for templates with (at
most) one replacement field: substitute `arg` for the first
occurrence of the two-character field. -/
def pyFormat : List Char → List Char → List Char
  | [], _ => []
  | c1 :: rest, arg =>
    match rest with
    | [] => [c1]
    | c2 :: rest2 =>
      if c1 = lbrace ∧ c2 = rbrace then arg ++ rest2
      else c1 :: pyFormat rest arg

/-- The label searched for in the OCR text (telebirr.py line 22,
bot.py line 29). -/
def LABEL : List Char := ("Transaction Number").data

/-- The label lower-cased, as compared against the lower-cased text. -/
def LABEL_LOWER : List Char := LABEL.map Char.toLower

/-- The constant part of the verification URL. -/
def URL_BASE : List Char := ("https://transactioninfo.ethiotelecom.et/receipt/").data

/-- TELEBIRR_VERIFICATION_URL (telebirr.py line 11; the identical
literal appears as verify_url in bot.py line 30): the base URL
followed by the format placeholder. -/
def TELEBIRR_VERIFICATION_URL : List Char := URL_BASE ++ [lbrace, rbrace]

/-- SUCCESS_STRING (telebirr.py line 13, bot.py line 102): the marker
checked for in the response body. -/
def SUCCESS_STRING : List Char :=
  ("የቴሌብር ክፍያ መረጃ/telebirr Transaction information").data

/-- Embedding of extract_transaction_info (telebirr.py lines 18-40;
bot.py lines 25-49 is the same computation, additionally returning
the constant bank name and URL).  The Python code first tests
`label.lower() in text_data_lower` and then calls `.find`; both are
merged into the single `findSub` match (they agree by definition).
The `match pySplit remainder with | [] => none` arm is the
`except (IndexError, ValueError)` handler catching
`remainder.split()[0]` on a token-free remainder. -/
def extract_transaction_info (text_data : List Char) : Option (List Char) :=
  let text_data_lower := text_data.map Char.toLower
  match findSub LABEL_LOWER text_data_lower with
  | none => none
  | some start_index =>
    let remainder := pyRemoveColons (pyStrip (text_data.drop (start_index + LABEL.length)))
    if remainder = [] then none
    else
      match pySplit remainder with
      | [] => none
      | tok :: _ => some (tok.map Char.toUpper)

/-- A recognized word of the OCR output. -/
structure Word where
  value : List Char

/-- A line of the OCR output: an ordered list of words. -/
structure Line where
  words : List Word

/-- A block of the OCR output: an ordered list of lines. -/
structure Block where
  lines : List Line

/-- A page of the OCR output: an ordered list of blocks. -/
structure Page where
  blocks : List Block

/-- The hierarchical OCR result (docTR: pages, blocks, lines, words). -/
structure OcrResult where
  pages : List Page

/-- Embedding of Python's " ".join. -/
def joinSpaces : List (List Char) → List Char
  | [] => []
  | [w] => w
  | w :: w2 :: ws => w ++ ' ' :: joinSpaces (w2 :: ws)

/-- The linearization loop of process_image_for_txid (telebirr.py
lines 55-59, bot.py lines 64-68): full_text starts empty and each
line appends its space-joined words plus a newline. -/
def linearize (r : OcrResult) : List Char :=
  r.pages.foldl (fun full_text page =>
    page.blocks.foldl (fun full_text block =>
      block.lines.foldl (fun full_text line =>
        full_text ++ joinSpaces (line.words.map Word.value) ++ ['\n']) full_text) full_text) []

/-- Result of invoking the OCR backend (DocumentFile.from_images and
the model call, telebirr.py lines 48-49): either some exception was
raised, or a document was produced. -/
inductive OcrOutcome where
  | exn
  | ok (r : OcrResult)

/-- Embedding of process_image_for_txid (telebirr.py lines 42-73),
parametrised by the OCR backend's outcome on the given image.  The
Python guard `not result or not result.pages` is modelled by the
empty-pages test (a falsy result has no pages).  The surrounding
`except Exception` handler is the `.exn` arm. -/
def process_image_for_txid (ocr : OcrOutcome) : Option (List Char) × Option (List Char) :=
  match ocr with
  | .exn => (none, none)
  | .ok r =>
    if r.pages.isEmpty then (none, none)
    else
      let full_text := linearize r
      if pyStrip full_text = [] then (none, none)
      else (extract_transaction_info full_text, some TELEBIRR_VERIFICATION_URL)

/-- Result of one requests.get call: either a response with a status
code and a body, or a raised requests.exceptions.RequestException. -/
inductive NetResult where
  | ok (status_code : Nat) (text : List Char)
  | exn

/-- The success test applied to one attempt's response:
status == 200 and the body contains SUCCESS_STRING (telebirr.py
line 84 and analogues); an exception is not a success. -/
def attemptSuccess : NetResult → Bool
  | .ok s b => s == 200 && pyContains b SUCCESS_STRING
  | .exn => false

/-- The '0' to 'O' correction block of verify_telebirr_receipt
(telebirr.py lines 95-100) followed by the final `return False`
(line 102).  `tried` is the list of URLs requested so far; a raised
RequestException is caught by the handler at lines 103-105, which
returns False. -/
def verifyZeroStep (net : List Char → NetResult) (tx_id verify_url : List Char)
    (tried : List (List Char)) : Bool × List (List Char) :=
  if '0' ∈ tx_id then
    match net (pyFormat verify_url (pyReplaceChar '0' 'O' tx_id)) with
    | .exn => (false, tried ++ [pyFormat verify_url (pyReplaceChar '0' 'O' tx_id)])
    | .ok s b => (s == 200 && pyContains b SUCCESS_STRING,
        tried ++ [pyFormat verify_url (pyReplaceChar '0' 'O' tx_id)])
  else (false, tried)

/-- The 'O' to '0' correction block of verify_telebirr_receipt
(telebirr.py lines 88-93), falling through to `verifyZeroStep`. -/
def verifyOStep (net : List Char → NetResult) (tx_id verify_url : List Char)
    (tried : List (List Char)) : Bool × List (List Char) :=
  if 'O' ∈ tx_id then
    match net (pyFormat verify_url (pyReplaceChar 'O' '0' tx_id)) with
    | .exn => (false, tried ++ [pyFormat verify_url (pyReplaceChar 'O' '0' tx_id)])
    | .ok s b =>
      if s == 200 && pyContains b SUCCESS_STRING then
        (true, tried ++ [pyFormat verify_url (pyReplaceChar 'O' '0' tx_id)])
      else verifyZeroStep net tx_id verify_url
        (tried ++ [pyFormat verify_url (pyReplaceChar 'O' '0' tx_id)])
  else verifyZeroStep net tx_id verify_url tried

/-- Embedding of verify_telebirr_receipt (telebirr.py lines 75-105),
parametrised by the HTTP oracle `net`.  Besides the boolean the code
returns, the embedding also records the list of URLs passed to
requests.get, in order, so that claims about the attempt sequence
can be stated. -/
def verify_telebirr_receipt (net : List Char → NetResult) (tx_id verify_url : List Char) :
    Bool × List (List Char) :=
  match net (pyFormat verify_url tx_id) with
  | .exn => (false, [pyFormat verify_url tx_id])
  | .ok s b =>
    if s == 200 && pyContains b SUCCESS_STRING then (true, [pyFormat verify_url tx_id])
    else verifyOStep net tx_id verify_url [pyFormat verify_url tx_id]

/-- The user-facing messages handle_photo can send (bot.py), one
constructor per reply_text category. -/
inductive Msg where
  | processing
  | validRaw
  | validO0
  | valid0O
  | link (url : List Char)
  | notVerified
  | transportError
  | noTxId
deriving DecidableEq

/-- Observable effect of one handle_photo run: the messages sent, the
URLs requested, and whether the downloaded file still exists at the
end. -/
structure BotRun where
  msgs : List Msg
  attempts : List (List Char)
  fileExists : Bool
deriving DecidableEq

/-- Embedding of `if os.path.exists(file_path): os.remove(file_path)`
acting on the file-existence state. -/
def removeIfExists (b : Bool) : Bool :=
  if b then false else b

/-- The '0' to 'O' correction block of handle_photo (bot.py lines
123-134), the all-attempts-failed message (line 137), and the final
cleanup (lines 145-146).  The downloaded file exists on entry. -/
def photoZeroStep (net : List Char → NetResult) (tx_id : List Char)
    (tried : List (List Char)) : BotRun :=
  if '0' ∈ tx_id then
    match net (pyFormat TELEBIRR_VERIFICATION_URL (pyReplaceChar '0' 'O' tx_id)) with
    | .exn => ⟨[Msg.transportError],
        tried ++ [pyFormat TELEBIRR_VERIFICATION_URL (pyReplaceChar '0' 'O' tx_id)],
        removeIfExists true⟩
    | .ok s b =>
      if s == 200 && pyContains b SUCCESS_STRING then
        ⟨[Msg.valid0O, Msg.link (pyFormat TELEBIRR_VERIFICATION_URL (pyReplaceChar '0' 'O' tx_id))],
          tried ++ [pyFormat TELEBIRR_VERIFICATION_URL (pyReplaceChar '0' 'O' tx_id)],
          removeIfExists true⟩
      else ⟨[Msg.notVerified],
        tried ++ [pyFormat TELEBIRR_VERIFICATION_URL (pyReplaceChar '0' 'O' tx_id)],
        removeIfExists true⟩
  else ⟨[Msg.notVerified], tried, removeIfExists true⟩

/-- The 'O' to '0' correction block of handle_photo (bot.py lines
110-121), falling through to `photoZeroStep`. -/
def photoOStep (net : List Char → NetResult) (tx_id : List Char)
    (tried : List (List Char)) : BotRun :=
  if 'O' ∈ tx_id then
    match net (pyFormat TELEBIRR_VERIFICATION_URL (pyReplaceChar 'O' '0' tx_id)) with
    | .exn => ⟨[Msg.transportError],
        tried ++ [pyFormat TELEBIRR_VERIFICATION_URL (pyReplaceChar 'O' '0' tx_id)],
        removeIfExists true⟩
    | .ok s b =>
      if s == 200 && pyContains b SUCCESS_STRING then
        ⟨[Msg.validO0, Msg.link (pyFormat TELEBIRR_VERIFICATION_URL (pyReplaceChar 'O' '0' tx_id))],
          tried ++ [pyFormat TELEBIRR_VERIFICATION_URL (pyReplaceChar 'O' '0' tx_id)],
          removeIfExists true⟩
      else photoZeroStep net tx_id
        (tried ++ [pyFormat TELEBIRR_VERIFICATION_URL (pyReplaceChar 'O' '0' tx_id)])
  else photoZeroStep net tx_id tried

/-- Embedding of handle_photo (bot.py lines 84-146) after the file
download, parametrised by the HTTP oracle and by the transaction id
extracted by process_image_for_txid (`none` models the falsy
tx_id/verify_url case of line 94; bot.py's verify_url literal equals
TELEBIRR_VERIFICATION_URL).  Every terminating path applies the
guarded file removal of lines 119-120, 132-133 or 145-146 to the
downloaded file. -/
def handle_photo (net : List Char → NetResult) (txRes : Option (List Char)) : BotRun :=
  match txRes with
  | none => ⟨[Msg.processing, Msg.noTxId], [], removeIfExists true⟩
  | some tx_id =>
    match net (pyFormat TELEBIRR_VERIFICATION_URL tx_id) with
    | .exn => ⟨[Msg.processing, Msg.transportError],
        [pyFormat TELEBIRR_VERIFICATION_URL tx_id], removeIfExists true⟩
    | .ok s b =>
      if s == 200 && pyContains b SUCCESS_STRING then
        ⟨[Msg.processing, Msg.validRaw, Msg.link (pyFormat TELEBIRR_VERIFICATION_URL tx_id)],
          [pyFormat TELEBIRR_VERIFICATION_URL tx_id], removeIfExists true⟩
      else
        ⟨Msg.processing :: (photoOStep net tx_id [pyFormat TELEBIRR_VERIFICATION_URL tx_id]).msgs,
          (photoOStep net tx_id [pyFormat TELEBIRR_VERIFICATION_URL tx_id]).attempts,
          (photoOStep net tx_id [pyFormat TELEBIRR_VERIFICATION_URL tx_id]).fileExists⟩

/-- Comparison definition written from the spec's words: the ordered
candidate set — the raw identifier, then the O-to-0 variant when the
raw identifier contains 'O', then the 0-to-O variant when it
contains '0'. -/
def candidates (tx : List Char) : List (List Char) :=
  [tx] ++ (if 'O' ∈ tx then [pyReplaceChar 'O' '0' tx] else [])
       ++ (if '0' ∈ tx then [pyReplaceChar '0' 'O' tx] else [])

/-- Comparison definition written from the spec's words: attempt the
candidates in order, stopping at the first success; returns the URLs
attempted (assuming no attempt raises). -/
def runNoErr (net : List Char → NetResult) (tmpl : List Char) :
    List (List Char) → List (List Char)
  | [] => []
  | c :: cs =>
    let u := pyFormat tmpl c
    if attemptSuccess (net u) then [u] else u :: runNoErr net tmpl cs

/-- Comparison definition written from the spec's words: the
simultaneous both-characters-swapped variant, which the spec says is
never attempted. -/
def bothSwap (tx : List Char) : List Char :=
  tx.map (fun c => if c = 'O' then '0' else if c = '0' then 'O' else c)

/-- Comparison definition written from the spec's words: the text of
one OCR line — word values joined by single spaces, then a
newline. -/
def lineText (l : Line) : List Char :=
  joinSpaces (l.words.map Word.value) ++ ['\n']

/-- Comparison definition written from the spec's words: the
concatenation, over pages in document order, blocks in page order
and lines in block order, of each line's text. -/
def linearSpec (r : OcrResult) : List Char :=
  (r.pages.map (fun p => (p.blocks.map (fun b => (b.lines.map lineText).flatten)).flatten)).flatten

/-- HTTP oracle where every request gets a clean 404 response. -/
def netFailAll : List Char → NetResult := fun _ => NetResult.ok 404 []

/-- HTTP oracle where every request raises a RequestException. -/
def netExnAll : List Char → NetResult := fun _ => NetResult.exn

/-- HTTP oracle where every request gets a 200 response whose body is
the success marker. -/
def netOkAll : List Char → NetResult := fun _ => NetResult.ok 200 SUCCESS_STRING

/-- Concrete receipt text containing the label and a token. -/
def wTextLabel : List Char := ("Transaction Number: AB0123").data

/-- Concrete receipt text where only colons and whitespace follow the
label. -/
def wTextColons : List Char := ("Transaction Number: :").data

/-- Concrete transaction id containing neither 'O' nor '0'. -/
def wTxPlain : List Char := ("AB12").data

/-- Concrete transaction id containing both 'O' and '0'. -/
def wTxBoth : List Char := ("AB01O3").data

/-- Unfolding of Char.toUpper as an if on the code point. -/
theorem toUpper_eq (c : Char) :
    c.toUpper = if 97 ≤ c.toNat ∧ c.toNat ≤ 122 then Char.ofNat (c.toNat - 32) else c := rfl

/-- Facts about characters in the upper-case letter range: upper-casing
fixes them, they are not whitespace, and they are not a colon. -/
theorem upper_range_facts (m : Nat) (h1 : 65 ≤ m) (h2 : m ≤ 90) :
    Char.toUpper (Char.ofNat m) = Char.ofNat m ∧
    pyIsSpace (Char.ofNat m) = false ∧ Char.ofNat m ≠ ':' := by
  interval_cases m <;> exact ⟨by decide, by decide, by decide⟩

/-- Upper-casing a character twice is the same as doing it once. -/
theorem toUpper_toUpper (c : Char) : c.toUpper.toUpper = c.toUpper := by
  rw [toUpper_eq c]
  split_ifs with h
  · exact (upper_range_facts (c.toNat - 32) (by omega) (by omega)).1
  · rw [toUpper_eq c, if_neg h]

/-- Upper-casing preserves not-being-whitespace. -/
theorem pyIsSpace_toUpper (c : Char) (h : pyIsSpace c = false) :
    pyIsSpace c.toUpper = false := by
  rw [toUpper_eq]
  split_ifs with hc
  · exact (upper_range_facts (c.toNat - 32) (by omega) (by omega)).2.1
  · exact h

/-- Upper-casing preserves not-being-a-colon. -/
theorem toUpper_ne_colon (c : Char) (h : c ≠ ':') : c.toUpper ≠ ':' := by
  rw [toUpper_eq]
  split_ifs with hc
  · exact (upper_range_facts (c.toNat - 32) (by omega) (by omega)).2.2
  · exact h

/-- Tokens produced by `splitAux` are non-empty and consist of
non-whitespace characters drawn from the input or the accumulator. -/
theorem splitAux_spec (l : List Char) : ∀ acc : List Char,
    (∀ c ∈ acc, pyIsSpace c = false) →
    ∀ t ∈ splitAux l acc, t ≠ [] ∧ ∀ c ∈ t, pyIsSpace c = false ∧ (c ∈ l ∨ c ∈ acc) := by
  induction l with
  | nil =>
    intro acc hacc t ht
    unfold splitAux at ht
    split at ht
    · exact absurd ht (List.not_mem_nil t)
    · rename_i hne
      rw [List.mem_singleton] at ht
      subst ht
      refine ⟨by simpa using hne, fun c hc => ?_⟩
      rw [List.mem_reverse] at hc
      exact ⟨hacc c hc, Or.inr hc⟩
  | cons a rest ih =>
    intro acc hacc t ht
    unfold splitAux at ht
    split at ht
    · rename_i hsp
      split at ht
      · rename_i hae
        obtain ⟨h1, h2⟩ := ih [] (by simp) t ht
        exact ⟨h1, fun c hc => by
          rcases h2 c hc with ⟨hc1, hc2 | hc2⟩
          · exact ⟨hc1, Or.inl (List.mem_cons_of_mem a hc2)⟩
          · exact absurd hc2 (List.not_mem_nil c)⟩
      · rename_i hae
        rcases List.mem_cons.mp ht with rfl | ht'
        · refine ⟨by simpa using hae, fun c hc => ?_⟩
          rw [List.mem_reverse] at hc
          exact ⟨hacc c hc, Or.inr hc⟩
        · obtain ⟨h1, h2⟩ := ih [] (by simp) t ht'
          exact ⟨h1, fun c hc => by
            rcases h2 c hc with ⟨hc1, hc2 | hc2⟩
            · exact ⟨hc1, Or.inl (List.mem_cons_of_mem a hc2)⟩
            · exact absurd hc2 (List.not_mem_nil c)⟩
    · rename_i hsp
      have hsp' : pyIsSpace a = false := by
        revert hsp
        cases pyIsSpace a <;> simp
      obtain ⟨h1, h2⟩ := ih (a :: acc)
        (fun c hc => by
          rcases List.mem_cons.mp hc with rfl | hc'
          · exact hsp'
          · exact hacc c hc') t ht
      refine ⟨h1, fun c hc => ?_⟩
      rcases h2 c hc with ⟨hc1, hc2 | hc2⟩
      · exact ⟨hc1, Or.inl (List.mem_cons_of_mem a hc2)⟩
      · rcases List.mem_cons.mp hc2 with rfl | hc'
        · exact ⟨hc1, Or.inl (List.mem_cons_self _ _)⟩
        · exact ⟨hc1, Or.inr hc'⟩

/-- Tokens of `pySplit` are non-empty, whitespace-free and drawn from
the input string. -/
theorem pySplit_token (l t : List Char) (ht : t ∈ pySplit l) :
    t ≠ [] ∧ ∀ c ∈ t, pyIsSpace c = false ∧ c ∈ l := by
  obtain ⟨h1, h2⟩ := splitAux_spec l [] (by simp) t ht
  refine ⟨h1, fun c hc => ?_⟩
  rcases h2 c hc with ⟨hc1, hc2 | hc2⟩
  · exact ⟨hc1, hc2⟩
  · exact absurd hc2 (List.not_mem_nil c)

/-- Splitting an all-whitespace string yields no tokens. -/
theorem pySplit_allSpace (l : List Char) (h : ∀ c ∈ l, pyIsSpace c = true) :
    pySplit l = [] := by
  unfold pySplit
  induction l with
  | nil => rfl
  | cons a rest ih =>
    unfold splitAux
    rw [if_pos (h a (List.mem_cons_self a rest)), if_pos rfl]
    exact ih fun c hc => h c (List.mem_cons_of_mem a hc)

/-- Characters of the stripped string come from the original. -/
theorem mem_pyStrip (c : Char) (l : List Char) (h : c ∈ pyStrip l) : c ∈ l := by
  unfold pyStrip at h
  rw [List.mem_reverse] at h
  have h1 := (List.dropWhile_sublist _).mem h
  rw [List.mem_reverse] at h1
  exact (List.dropWhile_sublist _).mem h1

/-- Characters surviving colon removal come from the original and are
not colons. -/
theorem mem_pyRemoveColons (c : Char) (l : List Char) (h : c ∈ pyRemoveColons l) :
    c ∈ l ∧ c ≠ ':' := by
  unfold pyRemoveColons at h
  rcases List.mem_filter.mp h with ⟨h1, h2⟩
  exact ⟨h1, by simpa using h2⟩

/-- `findSub` returns an actual occurrence, and the first one: the
pattern matches at the returned index and at no smaller index. -/
theorem findSub_spec (pat : List Char) : ∀ (l : List Char) (i : Nat),
    findSub pat l = some i →
    pat.isPrefixOf (l.drop i) = true ∧ ∀ j, j < i → pat.isPrefixOf (l.drop j) = false := by
  intro l
  induction l with
  | nil =>
    intro i h
    unfold findSub at h
    split at h
    · rename_i hp
      obtain rfl : 0 = i := Option.some.inj h
      subst hp
      exact ⟨rfl, fun j hj => absurd hj (by omega)⟩
    · exact absurd h (by simp)
  | cons a rest ih =>
    intro i h
    unfold findSub at h
    split at h
    · rename_i hp
      obtain rfl : 0 = i := Option.some.inj h
      exact ⟨hp, fun j hj => absurd hj (by omega)⟩
    · rename_i hp
      rw [Option.map_eq_some'] at h
      obtain ⟨i', hi', rfl⟩ := h
      obtain ⟨hpre, hmin⟩ := ih i' hi'
      refine ⟨by simpa using hpre, fun j hj => ?_⟩
      cases j with
      | zero =>
        simp only [List.drop_zero]
        revert hp
        cases pat.isPrefixOf (a :: rest) <;> simp
      | succ j' => simpa using hmin j' (by omega)

/-- Formatting a template whose placeholder is at the very front. -/
theorem pyFormat_here (post arg : List Char) :
    pyFormat (lbrace :: rbrace :: post) arg = arg ++ post := by
  simp [pyFormat]

/-- Formatting a template with exactly one placeholder substitutes the
argument for it. -/
theorem pyFormat_eq (pre : List Char) : ∀ (post arg : List Char), lbrace ∉ pre →
    pyFormat (pre ++ lbrace :: rbrace :: post) arg = pre ++ arg ++ post := by
  induction pre with
  | nil => intro post arg _; simpa using pyFormat_here post arg
  | cons c pre ih =>
    intro post arg hpre
    have hc : c ≠ lbrace := fun h => hpre (h ▸ List.mem_cons_self c pre)
    have hpre' : lbrace ∉ pre := fun h => hpre (List.mem_cons_of_mem c h)
    cases pre with
    | nil => simp [pyFormat, hc, pyFormat_here]
    | cons d pre' =>
      have := ih post arg hpre'
      simp only [List.cons_append] at this ⊢
      rw [show pyFormat (c :: d :: (pre' ++ lbrace :: rbrace :: post)) arg
            = c :: pyFormat (d :: (pre' ++ lbrace :: rbrace :: post)) arg from by
          simp [pyFormat, hc], this]

/-- The verification URL template formats to the base URL followed by
the identifier. -/
theorem pyFormat_url (arg : List Char) :
    pyFormat TELEBIRR_VERIFICATION_URL arg = URL_BASE ++ arg := by
  have h := pyFormat_eq URL_BASE [] arg (by decide)
  unfold TELEBIRR_VERIFICATION_URL
  simpa using h

/-- Under an error-free oracle, the '0' correction block behaves like
the candidate runner on its (possibly empty) candidate list. -/
theorem verifyZeroStep_noErr (net : List Char → NetResult) (tx_id verify_url : List Char)
    (tried : List (List Char)) (hnet : ∀ u, net u ≠ NetResult.exn) :
    verifyZeroStep net tx_id verify_url tried =
      ((if '0' ∈ tx_id then [pyReplaceChar '0' 'O' tx_id] else []).any
          (fun c => attemptSuccess (net (pyFormat verify_url c))),
        tried ++ runNoErr net verify_url
          (if '0' ∈ tx_id then [pyReplaceChar '0' 'O' tx_id] else [])) := by
  by_cases h0 : '0' ∈ tx_id
  · cases hn : net (pyFormat verify_url (pyReplaceChar '0' 'O' tx_id)) with
    | exn => exact absurd hn (hnet _)
    | ok s b => simp [verifyZeroStep, runNoErr, attemptSuccess, hn, h0]
  · simp [verifyZeroStep, runNoErr, h0]

/-- Under an error-free oracle, the two correction blocks together
behave like the candidate runner on the corrected-variant list. -/
theorem verifyOStep_noErr (net : List Char → NetResult) (tx_id verify_url : List Char)
    (tried : List (List Char)) (hnet : ∀ u, net u ≠ NetResult.exn) :
    verifyOStep net tx_id verify_url tried =
      (((if 'O' ∈ tx_id then [pyReplaceChar 'O' '0' tx_id] else []) ++
          (if '0' ∈ tx_id then [pyReplaceChar '0' 'O' tx_id] else [])).any
          (fun c => attemptSuccess (net (pyFormat verify_url c))),
        tried ++ runNoErr net verify_url
          ((if 'O' ∈ tx_id then [pyReplaceChar 'O' '0' tx_id] else []) ++
            (if '0' ∈ tx_id then [pyReplaceChar '0' 'O' tx_id] else []))) := by
  by_cases hO : 'O' ∈ tx_id
  · cases hn : net (pyFormat verify_url (pyReplaceChar 'O' '0' tx_id)) with
    | exn => exact absurd hn (hnet _)
    | ok s b =>
      by_cases hs : (s == 200 && pyContains b SUCCESS_STRING) = true
      · simp [verifyOStep, runNoErr, attemptSuccess, hn, hs, hO]
      · have hs' : (s == 200 && pyContains b SUCCESS_STRING) = false := by
          simpa using hs
        rw [verifyOStep, if_pos hO, hn]
        simp only [hs', Bool.false_eq_true, if_false,
          verifyZeroStep_noErr net tx_id verify_url _ hnet]
        simp [runNoErr, attemptSuccess, hn, hs', hO]
  · rw [verifyOStep, if_neg hO, verifyZeroStep_noErr net tx_id verify_url _ hnet]
    simp [hO]

/-- Under an error-free oracle, verify_telebirr_receipt attempts
exactly the spec's ordered candidates, stops at the first success,
and succeeds iff some candidate's attempt succeeds. -/
theorem verify_noErr_run (net : List Char → NetResult) (tx_id verify_url : List Char)
    (hnet : ∀ u, net u ≠ NetResult.exn) :
    verify_telebirr_receipt net tx_id verify_url =
      ((candidates tx_id).any (fun c => attemptSuccess (net (pyFormat verify_url c))),
        runNoErr net verify_url (candidates tx_id)) := by
  cases hn : net (pyFormat verify_url tx_id) with
  | exn => exact absurd hn (hnet _)
  | ok s b =>
    by_cases hs : (s == 200 && pyContains b SUCCESS_STRING) = true
    · simp [verify_telebirr_receipt, candidates, runNoErr, attemptSuccess, hn, hs]
    · have hs' : (s == 200 && pyContains b SUCCESS_STRING) = false := by
        simpa using hs
      rw [verify_telebirr_receipt, hn]
      simp only [hs', Bool.false_eq_true, if_false,
        verifyOStep_noErr net tx_id verify_url _ hnet]
      simp [candidates, runNoErr, attemptSuccess, hn, hs']

/-- The candidate runner never attempts more candidates than it is
given. -/
theorem runNoErr_length_le (net : List Char → NetResult) (tmpl : List Char) :
    ∀ cs : List (List Char), (runNoErr net tmpl cs).length ≤ cs.length := by
  intro cs
  induction cs with
  | nil => simp [runNoErr]
  | cons c cs ih =>
    rw [runNoErr]
    split_ifs
    · simp
    · simpa using ih

/-- The '0' correction block returns a trace extending `tried`, and
only reports success when it actually attempted something. -/
theorem verifyZeroStep_shape (net : List Char → NetResult) (tx_id verify_url : List Char)
    (tried : List (List Char)) :
    ∃ r extra, verifyZeroStep net tx_id verify_url tried = (r, tried ++ extra) ∧
      (r = true → extra ≠ []) := by
  by_cases h0 : '0' ∈ tx_id
  · rw [verifyZeroStep, if_pos h0]
    cases net (pyFormat verify_url (pyReplaceChar '0' 'O' tx_id)) with
    | exn =>
      exact ⟨false, [pyFormat verify_url (pyReplaceChar '0' 'O' tx_id)], rfl, by simp⟩
    | ok s b =>
      exact ⟨s == 200 && pyContains b SUCCESS_STRING,
        [pyFormat verify_url (pyReplaceChar '0' 'O' tx_id)], rfl, fun _ => by simp⟩
  · rw [verifyZeroStep, if_neg h0]
    exact ⟨false, [], by simp, by simp⟩

/-- The two correction blocks return a trace extending `tried`, and
only report success when they actually attempted something. -/
theorem verifyOStep_shape (net : List Char → NetResult) (tx_id verify_url : List Char)
    (tried : List (List Char)) :
    ∃ r extra, verifyOStep net tx_id verify_url tried = (r, tried ++ extra) ∧
      (r = true → extra ≠ []) := by
  by_cases hO : 'O' ∈ tx_id
  · cases hn : net (pyFormat verify_url (pyReplaceChar 'O' '0' tx_id)) with
    | exn =>
      simp only [verifyOStep, if_pos hO, hn]
      exact ⟨false, [pyFormat verify_url (pyReplaceChar 'O' '0' tx_id)], rfl, by simp⟩
    | ok s b =>
      simp only [verifyOStep, if_pos hO, hn]
      by_cases hs : (s == 200 && pyContains b SUCCESS_STRING) = true
      · rw [if_pos hs]
        exact ⟨true, [pyFormat verify_url (pyReplaceChar 'O' '0' tx_id)], rfl,
          fun _ => by simp⟩
      · rw [if_neg hs]
        obtain ⟨r, extra, heq, _⟩ := verifyZeroStep_shape net tx_id verify_url
          (tried ++ [pyFormat verify_url (pyReplaceChar 'O' '0' tx_id)])
        exact ⟨r, [pyFormat verify_url (pyReplaceChar 'O' '0' tx_id)] ++ extra,
          by rw [heq, List.append_assoc], fun _ => by simp⟩
  · rw [verifyOStep, if_neg hO]
    exact verifyZeroStep_shape net tx_id verify_url tried

/-- An exception inside the '0' correction block ends the run there:
the erroring URL is the last one attempted and the result is False. -/
theorem verifyZeroStep_exn (net : List Char → NetResult) (tx_id verify_url : List Char)
    (tried : List (List Char)) (htried : ∀ v ∈ tried, net v ≠ NetResult.exn) :
    ∀ u ∈ (verifyZeroStep net tx_id verify_url tried).2, net u = NetResult.exn →
      (verifyZeroStep net tx_id verify_url tried).1 = false ∧
      ∃ pre, (verifyZeroStep net tx_id verify_url tried).2 = pre ++ [u] := by
  by_cases h0 : '0' ∈ tx_id
  · cases hn : net (pyFormat verify_url (pyReplaceChar '0' 'O' tx_id)) with
    | exn =>
      simp only [verifyZeroStep, if_pos h0, hn]
      intro u hu hexn
      rcases List.mem_append.mp hu with hu' | hu'
      · exact absurd hexn (htried u hu')
      · rw [List.mem_singleton] at hu'
        subst hu'
        exact ⟨by simp, tried, by simp⟩
    | ok s b =>
      simp only [verifyZeroStep, if_pos h0, hn]
      intro u hu hexn
      rcases List.mem_append.mp hu with hu' | hu'
      · exact absurd hexn (htried u hu')
      · rw [List.mem_singleton] at hu'
        subst hu'
        rw [hn] at hexn
        exact NetResult.noConfusion hexn
  · simp only [verifyZeroStep, if_neg h0]
    intro u hu hexn
    exact absurd hexn (htried u hu)

/-- An exception inside either correction block ends the run there. -/
theorem verifyOStep_exn (net : List Char → NetResult) (tx_id verify_url : List Char)
    (tried : List (List Char)) (htried : ∀ v ∈ tried, net v ≠ NetResult.exn) :
    ∀ u ∈ (verifyOStep net tx_id verify_url tried).2, net u = NetResult.exn →
      (verifyOStep net tx_id verify_url tried).1 = false ∧
      ∃ pre, (verifyOStep net tx_id verify_url tried).2 = pre ++ [u] := by
  by_cases hO : 'O' ∈ tx_id
  · cases hn : net (pyFormat verify_url (pyReplaceChar 'O' '0' tx_id)) with
    | exn =>
      simp only [verifyOStep, if_pos hO, hn]
      intro u hu hexn
      rcases List.mem_append.mp hu with hu' | hu'
      · exact absurd hexn (htried u hu')
      · rw [List.mem_singleton] at hu'
        subst hu'
        exact ⟨by simp, tried, by simp⟩
    | ok s b =>
      by_cases hs : (s == 200 && pyContains b SUCCESS_STRING) = true
      · simp only [verifyOStep, if_pos hO, hn, if_pos hs]
        intro u hu hexn
        rcases List.mem_append.mp hu with hu' | hu'
        · exact absurd hexn (htried u hu')
        · rw [List.mem_singleton] at hu'
          subst hu'
          rw [hn] at hexn
          exact NetResult.noConfusion hexn
      · simp only [verifyOStep, if_pos hO, hn, if_neg hs]
        refine verifyZeroStep_exn net tx_id verify_url _ ?_
        intro v hv
        rcases List.mem_append.mp hv with hv' | hv'
        · exact htried v hv'
        · rw [List.mem_singleton] at hv'
          subst hv'
          rw [hn]
          intro h
          exact NetResult.noConfusion h
  · simp only [verifyOStep, if_neg hO]
    exact verifyZeroStep_exn net tx_id verify_url tried htried

/-- An exception inside the handler's '0' correction block yields the
transport-error message, with the erroring URL last. -/
theorem photoZeroStep_exn (net : List Char → NetResult) (tx_id : List Char)
    (tried : List (List Char)) (htried : ∀ v ∈ tried, net v ≠ NetResult.exn) :
    ∀ u ∈ (photoZeroStep net tx_id tried).attempts, net u = NetResult.exn →
      (photoZeroStep net tx_id tried).msgs = [Msg.transportError] ∧
      ∃ pre, (photoZeroStep net tx_id tried).attempts = pre ++ [u] := by
  by_cases h0 : '0' ∈ tx_id
  · cases hn : net (pyFormat TELEBIRR_VERIFICATION_URL (pyReplaceChar '0' 'O' tx_id)) with
    | exn =>
      simp only [photoZeroStep, if_pos h0, hn]
      intro u hu hexn
      rcases List.mem_append.mp hu with hu' | hu'
      · exact absurd hexn (htried u hu')
      · rw [List.mem_singleton] at hu'
        subst hu'
        exact ⟨by simp, tried, by simp⟩
    | ok s b =>
      by_cases hs : (s == 200 && pyContains b SUCCESS_STRING) = true
      · simp only [photoZeroStep, if_pos h0, hn, if_pos hs]
        intro u hu hexn
        rcases List.mem_append.mp hu with hu' | hu'
        · exact absurd hexn (htried u hu')
        · rw [List.mem_singleton] at hu'
          subst hu'
          rw [hn] at hexn
          exact NetResult.noConfusion hexn
      · simp only [photoZeroStep, if_pos h0, hn, if_neg hs]
        intro u hu hexn
        rcases List.mem_append.mp hu with hu' | hu'
        · exact absurd hexn (htried u hu')
        · rw [List.mem_singleton] at hu'
          subst hu'
          rw [hn] at hexn
          exact NetResult.noConfusion hexn
  · simp only [photoZeroStep, if_neg h0]
    intro u hu hexn
    exact absurd hexn (htried u hu)

/-- An exception inside either of the handler's correction blocks
yields the transport-error message, with the erroring URL last. -/
theorem photoOStep_exn (net : List Char → NetResult) (tx_id : List Char)
    (tried : List (List Char)) (htried : ∀ v ∈ tried, net v ≠ NetResult.exn) :
    ∀ u ∈ (photoOStep net tx_id tried).attempts, net u = NetResult.exn →
      (photoOStep net tx_id tried).msgs = [Msg.transportError] ∧
      ∃ pre, (photoOStep net tx_id tried).attempts = pre ++ [u] := by
  by_cases hO : 'O' ∈ tx_id
  · cases hn : net (pyFormat TELEBIRR_VERIFICATION_URL (pyReplaceChar 'O' '0' tx_id)) with
    | exn =>
      simp only [photoOStep, if_pos hO, hn]
      intro u hu hexn
      rcases List.mem_append.mp hu with hu' | hu'
      · exact absurd hexn (htried u hu')
      · rw [List.mem_singleton] at hu'
        subst hu'
        exact ⟨by simp, tried, by simp⟩
    | ok s b =>
      by_cases hs : (s == 200 && pyContains b SUCCESS_STRING) = true
      · simp only [photoOStep, if_pos hO, hn, if_pos hs]
        intro u hu hexn
        rcases List.mem_append.mp hu with hu' | hu'
        · exact absurd hexn (htried u hu')
        · rw [List.mem_singleton] at hu'
          subst hu'
          rw [hn] at hexn
          exact NetResult.noConfusion hexn
      · simp only [photoOStep, if_pos hO, hn, if_neg hs]
        refine photoZeroStep_exn net tx_id _ ?_
        intro v hv
        rcases List.mem_append.mp hv with hv' | hv'
        · exact htried v hv'
        · rw [List.mem_singleton] at hv'
          subst hv'
          rw [hn]
          intro h
          exact NetResult.noConfusion h
  · simp only [photoOStep, if_neg hO]
    exact photoZeroStep_exn net tx_id tried htried

/-- The handler's '0' correction block always ends with the file
removed. -/
theorem photoZeroStep_file (net : List Char → NetResult) (tx_id : List Char)
    (tried : List (List Char)) : (photoZeroStep net tx_id tried).fileExists = false := by
  by_cases h0 : '0' ∈ tx_id
  · cases hn : net (pyFormat TELEBIRR_VERIFICATION_URL (pyReplaceChar '0' 'O' tx_id)) with
    | exn => simp [photoZeroStep, h0, hn, removeIfExists]
    | ok s b =>
      by_cases hs : (s == 200 && pyContains b SUCCESS_STRING) = true
      · simp [photoZeroStep, h0, hn, hs, removeIfExists]
      · simp [photoZeroStep, h0, hn, hs, removeIfExists]
  · simp [photoZeroStep, h0, removeIfExists]

/-- The handler's correction blocks always end with the file
removed. -/
theorem photoOStep_file (net : List Char → NetResult) (tx_id : List Char)
    (tried : List (List Char)) : (photoOStep net tx_id tried).fileExists = false := by
  by_cases hO : 'O' ∈ tx_id
  · cases hn : net (pyFormat TELEBIRR_VERIFICATION_URL (pyReplaceChar 'O' '0' tx_id)) with
    | exn => simp [photoOStep, hO, hn, removeIfExists]
    | ok s b =>
      by_cases hs : (s == 200 && pyContains b SUCCESS_STRING) = true
      · simp [photoOStep, hO, hn, hs, removeIfExists]
      · simp only [photoOStep, if_pos hO, hn, if_neg hs]
        exact photoZeroStep_file net tx_id _
  · simp only [photoOStep, if_neg hO]
    exact photoZeroStep_file net tx_id tried

/-- Mapping two functions that differ on some element of a list gives
different lists. -/
theorem map_ne_of_mem (f g : Char → Char) (a : Char) (hfg : f a ≠ g a) :
    ∀ l : List Char, a ∈ l → l.map f ≠ l.map g := by
  intro l
  induction l with
  | nil => intro ha; exact absurd ha (List.not_mem_nil a)
  | cons c rest ih =>
    intro ha h
    rw [List.map_cons, List.map_cons] at h
    injection h with h1 h2
    rcases List.mem_cons.mp ha with rfl | ha'
    · exact hfg h1
    · exact ih ha' h2

/-- The line-level fold appends the mapped line texts. -/
theorem foldl_lines (ls : List Line) (acc : List Char) :
    ls.foldl (fun ft line => ft ++ joinSpaces (line.words.map Word.value) ++ ['\n']) acc
      = acc ++ (ls.map lineText).flatten := by
  induction ls generalizing acc with
  | nil => simp
  | cons l ls ih =>
    rw [List.foldl_cons, ih]
    simp [lineText, List.append_assoc]

/-- The block-level fold appends the blocks' flattened line texts. -/
theorem foldl_blocks (bs : List Block) (acc : List Char) :
    bs.foldl (fun ft block =>
        block.lines.foldl (fun ft line =>
          ft ++ joinSpaces (line.words.map Word.value) ++ ['\n']) ft) acc
      = acc ++ (bs.map (fun b => (b.lines.map lineText).flatten)).flatten := by
  induction bs generalizing acc with
  | nil => simp
  | cons b bs ih =>
    rw [List.foldl_cons, foldl_lines, ih]
    simp [List.append_assoc]

/-- The page-level fold appends the pages' flattened block texts. -/
theorem foldl_pages (ps : List Page) (acc : List Char) :
    ps.foldl (fun ft page =>
        page.blocks.foldl (fun ft block =>
          block.lines.foldl (fun ft line =>
            ft ++ joinSpaces (line.words.map Word.value) ++ ['\n']) ft) ft) acc
      = acc ++ (ps.map (fun p =>
          (p.blocks.map (fun b => (b.lines.map lineText).flatten)).flatten)).flatten := by
  induction ps generalizing acc with
  | nil => simp
  | cons p ps ih =>
    rw [List.foldl_cons, foldl_blocks, ih]
    simp [List.append_assoc]

/-- C6: for every OCR document, the extracted text equals the
concatenation, over pages in document order, blocks in page order and
lines in block order, of the line's word values joined by single
spaces followed by a newline; word, line, block and page order are
preserved. -/
theorem C6_linearization (r : OcrResult) : linearize r = linearSpec r := by
  unfold linearize linearSpec
  rw [foldl_pages]
  simp

/-- C7: if the OCR backend raises, returns no pages, or yields
all-whitespace extracted text, process_image_for_txid reports the
uniform not-found result; the embedding is a total function, so no
exception reaches the caller. -/
theorem C7_ocr_failure (ocr : OcrOutcome)
    (h : ocr = OcrOutcome.exn ∨
      ∃ r, ocr = OcrOutcome.ok r ∧ (r.pages.isEmpty = true ∨ pyStrip (linearize r) = [])) :
    process_image_for_txid ocr = (none, none) := by
  rcases h with rfl | ⟨r, rfl, hr⟩
  · rfl
  · rcases hr with hp | ht
    · simp [process_image_for_txid, hp]
    · by_cases hp : r.pages.isEmpty
      · simp [process_image_for_txid, hp]
      · simp [process_image_for_txid, hp, ht]

/-- Witness for C7 at the backend-exception outcome. -/
theorem C7_ocr_failure_witness : process_image_for_txid OcrOutcome.exn = (none, none) :=
  C7_ocr_failure OcrOutcome.exn (Or.inl rfl)

/-- C8: whatever the oracle and the extraction outcome, the photo
handler ends every terminating path with the downloaded file
removed. -/
theorem C8_file_cleanup (net : List Char → NetResult) (txRes : Option (List Char)) :
    (handle_photo net txRes).fileExists = false := by
  cases txRes with
  | none => simp [handle_photo, removeIfExists]
  | some tx_id =>
    cases hn : net (pyFormat TELEBIRR_VERIFICATION_URL tx_id) with
    | exn => simp [handle_photo, hn, removeIfExists]
    | ok s b =>
      by_cases hs : (s == 200 && pyContains b SUCCESS_STRING) = true
      · simp [handle_photo, hn, hs, removeIfExists]
      · simp only [handle_photo, hn, if_neg hs]
        exact photoOStep_file net tx_id _

/-- C1: for every text containing the label (case-insensitively)
followed by a token, extract_transaction_info returns that token
upper-cased with colons removed — the substring after the label's end
is stripped, colon-freed, split on whitespace and its first token
upper-cased — and for every text not containing the label it returns
none. -/
theorem C1_resolve (text : List Char) :
    (findSub LABEL_LOWER (text.map Char.toLower) = none →
        extract_transaction_info text = none) ∧
    ∀ i tok rest, findSub LABEL_LOWER (text.map Char.toLower) = some i →
      pySplit (pyRemoveColons (pyStrip (text.drop (i + LABEL.length)))) = tok :: rest →
      extract_transaction_info text = some (tok.map Char.toUpper) := by
  constructor
  · intro h
    simp [extract_transaction_info, h]
  · intro i tok rest hfind hsplit
    have hne : pyRemoveColons (pyStrip (text.drop (i + LABEL.length))) ≠ [] := by
      intro he
      rw [he] at hsplit
      simp [pySplit, splitAux] at hsplit
    simp [extract_transaction_info, hfind, hne, hsplit]

/-- Witness for C1: the spec's own example text resolves to AB0123. -/
theorem C1_resolve_witness :
    extract_transaction_info wTextLabel = some (("AB0123").data) := by
  have h := (C1_resolve wTextLabel).2 0 (("AB0123").data) [] (by decide) (by decide)
  exact h.trans (by decide)

/-- C9: the resolver is a total function, and in particular when only
colons and whitespace follow the label — the case where the Python
code's remainder.split()[0] would raise IndexError — it returns none
via the caught-exception path rather than propagating. -/
theorem C9_resolve_total (text : List Char) (i : Nat)
    (hfind : findSub LABEL_LOWER (text.map Char.toLower) = some i)
    (hrem : ∀ c ∈ text.drop (i + LABEL.length), c = ':' ∨ pyIsSpace c = true) :
    extract_transaction_info text = none := by
  have hall : ∀ c ∈ pyRemoveColons (pyStrip (text.drop (i + LABEL.length))),
      pyIsSpace c = true := by
    intro c hc
    obtain ⟨hc1, hc2⟩ := mem_pyRemoveColons c _ hc
    have hc3 := mem_pyStrip c _ hc1
    rcases hrem c hc3 with h | h
    · exact absurd h hc2
    · exact h
  have hsplit := pySplit_allSpace _ hall
  by_cases he : pyRemoveColons (pyStrip (text.drop (i + LABEL.length))) = []
  · simp [extract_transaction_info, hfind, he]
  · simp [extract_transaction_info, hfind, he, hsplit]

/-- Witness for C9: a text whose label is followed only by a colon, a
space and a colon resolves to none instead of raising. -/
theorem C9_resolve_total_witness : extract_transaction_info wTextColons = none :=
  C9_resolve_total wTextColons 0 (by decide) (by decide)

/-- C10: whenever the resolver returns an identifier, it is non-empty,
contains no whitespace and no colon, equals its own upper-casing, and
is taken from after the first (lowest-index) occurrence of the
label. -/
theorem C10_invariants (text tx : List Char) (h : extract_transaction_info text = some tx) :
    tx ≠ [] ∧ (∀ c ∈ tx, pyIsSpace c = false) ∧ (∀ c ∈ tx, c ≠ ':') ∧
    tx.map Char.toUpper = tx ∧
    ∃ i tok rest,
      findSub LABEL_LOWER (text.map Char.toLower) = some i ∧
      (∀ j, j < i → LABEL_LOWER.isPrefixOf ((text.map Char.toLower).drop j) = false) ∧
      pySplit (pyRemoveColons (pyStrip (text.drop (i + LABEL.length)))) = tok :: rest ∧
      tx = tok.map Char.toUpper := by
  simp only [extract_transaction_info] at h
  split at h
  · exact absurd h (by simp)
  · rename_i start_index hfind
    split at h
    · exact absurd h (by simp)
    · rename_i hne
      split at h
      · exact absurd h (by simp)
      · rename_i tok rest hsplit
        obtain rfl : tok.map Char.toUpper = tx := Option.some.inj h
        obtain ⟨htok_ne, htok⟩ := pySplit_token _ tok
          (by rw [hsplit]; exact List.mem_cons_self _ _)
        refine ⟨?_, ?_, ?_, ?_, start_index, tok, rest, hfind, ?_, hsplit, rfl⟩
        · intro hc
          exact htok_ne (List.map_eq_nil_iff.mp hc)
        · intro c hc
          obtain ⟨c0, hc0, rfl⟩ := List.mem_map.mp hc
          exact pyIsSpace_toUpper c0 (htok c0 hc0).1
        · intro c hc
          obtain ⟨c0, hc0, rfl⟩ := List.mem_map.mp hc
          exact toUpper_ne_colon c0 (mem_pyRemoveColons c0 _ (htok c0 hc0).2).2
        · rw [List.map_map]
          exact List.map_congr_left fun c _ => toUpper_toUpper c
        · exact fun j hj => (findSub_spec LABEL_LOWER _ start_index hfind).2 j hj

/-- Witness for C10 at the concrete labelled text. -/
theorem C10_invariants_witness :
    ("AB0123").data ≠ [] ∧ (∀ c ∈ ("AB0123").data, pyIsSpace c = false) ∧
    (∀ c ∈ ("AB0123").data, c ≠ ':') ∧
    ("AB0123").data.map Char.toUpper = ("AB0123").data ∧
    ∃ i tok rest,
      findSub LABEL_LOWER (wTextLabel.map Char.toLower) = some i ∧
      (∀ j, j < i → LABEL_LOWER.isPrefixOf ((wTextLabel.map Char.toLower).drop j) = false) ∧
      pySplit (pyRemoveColons (pyStrip (wTextLabel.drop (i + LABEL.length)))) = tok :: rest ∧
      ("AB0123").data = tok.map Char.toUpper :=
  C10_invariants wTextLabel (("AB0123").data) (by decide)

/-- C2: under an error-free oracle the verification attempts the
candidates in the exact order raw, then (only if the raw id contains
an O) the O-to-0 variant, then (only if it contains a 0) the 0-to-O
variant, stopping at the first success; it succeeds iff some
candidate's attempt succeeds, and a raw id with neither O nor 0
causes exactly one attempt. -/
theorem C2_candidate_order (net : List Char → NetResult) (tx_id verify_url : List Char)
    (hnet : ∀ u, net u ≠ NetResult.exn) :
    (verify_telebirr_receipt net tx_id verify_url).2 =
      runNoErr net verify_url (candidates tx_id) ∧
    ((verify_telebirr_receipt net tx_id verify_url).1 =
      (candidates tx_id).any (fun c => attemptSuccess (net (pyFormat verify_url c)))) ∧
    ('O' ∉ tx_id → '0' ∉ tx_id →
      (verify_telebirr_receipt net tx_id verify_url).2.length = 1) := by
  have h := verify_noErr_run net tx_id verify_url hnet
  refine ⟨by rw [h], by rw [h], ?_⟩
  intro hO h0
  rw [h]
  simp [candidates, runNoErr, hO, h0]

/-- Witness for C2 with a cleanly failing oracle and an id containing
neither O nor 0. -/
theorem C2_candidate_order_witness :
    (verify_telebirr_receipt netFailAll wTxPlain TELEBIRR_VERIFICATION_URL).2 =
      runNoErr netFailAll TELEBIRR_VERIFICATION_URL (candidates wTxPlain) ∧
    (verify_telebirr_receipt netFailAll wTxPlain TELEBIRR_VERIFICATION_URL).2.length = 1 := by
  have h := C2_candidate_order netFailAll wTxPlain TELEBIRR_VERIFICATION_URL
    (fun u h => NetResult.noConfusion h)
  exact ⟨h.1, h.2.2 (by decide) (by decide)⟩

/-- C5: a single attempt for an identifier succeeds with exactly one
request iff the response to the formatted URL has status 200 and a
body containing the marker, and the formatted URL is the fixed base
followed by the identifier. -/
theorem C5_single_attempt (net : List Char → NetResult) (tx_id : List Char) (s : Nat)
    (b : List Char)
    (hresp : net (pyFormat TELEBIRR_VERIFICATION_URL tx_id) = NetResult.ok s b) :
    (verify_telebirr_receipt net tx_id TELEBIRR_VERIFICATION_URL =
        (true, [pyFormat TELEBIRR_VERIFICATION_URL tx_id]) ↔
      (s = 200 ∧ pyContains b SUCCESS_STRING = true)) ∧
    pyFormat TELEBIRR_VERIFICATION_URL tx_id = URL_BASE ++ tx_id := by
  refine ⟨⟨?_, ?_⟩, pyFormat_url tx_id⟩
  · intro hv
    by_cases hs : (s == 200 && pyContains b SUCCESS_STRING) = true
    · simpa using hs
    · exfalso
      simp only [verify_telebirr_receipt, hresp, if_neg hs] at hv
      obtain ⟨r, extra, heq, himp⟩ := verifyOStep_shape net tx_id TELEBIRR_VERIFICATION_URL
        [pyFormat TELEBIRR_VERIFICATION_URL tx_id]
      rw [heq] at hv
      simp only [Prod.mk.injEq] at hv
      obtain ⟨h1, h2⟩ := hv
      exact himp h1 (by simpa using h2)
  · rintro ⟨rfl, hc⟩
    simp [verify_telebirr_receipt, hresp, hc]

/-- Witness for C5 with an oracle answering 200 and the marker. -/
theorem C5_single_attempt_witness :
    verify_telebirr_receipt netOkAll wTxPlain TELEBIRR_VERIFICATION_URL =
      (true, [pyFormat TELEBIRR_VERIFICATION_URL wTxPlain]) ∧
    pyFormat TELEBIRR_VERIFICATION_URL wTxPlain = URL_BASE ++ wTxPlain := by
  have h := C5_single_attempt netOkAll wTxPlain 200 SUCCESS_STRING rfl
  exact ⟨h.1.mpr ⟨rfl, by decide⟩, h.2⟩

/-- Counterexample to C3 as stated: in verify_telebirr_receipt a run
whose only attempt raises a RequestException returns exactly the same
value — False with the same attempt trace — as a run whose only
attempt is cleanly rejected with a 404, so the transport failure is
not distinguished from the clean not-verified outcome there. -/
theorem C3_counterexample :
    netExnAll (pyFormat TELEBIRR_VERIFICATION_URL wTxPlain) = NetResult.exn ∧
    netFailAll (pyFormat TELEBIRR_VERIFICATION_URL wTxPlain) = NetResult.ok 404 [] ∧
    verify_telebirr_receipt netExnAll wTxPlain TELEBIRR_VERIFICATION_URL =
      verify_telebirr_receipt netFailAll wTxPlain TELEBIRR_VERIFICATION_URL := by
  refine ⟨rfl, rfl, ?_⟩
  decide

/-- C3 (amended): a network exception during any single attempt
terminates the whole verification immediately — the erroring URL is
the last one attempted — and the photo handler surfaces it as the
transport-error message, distinct from the not-verified message; the
standalone verify_telebirr_receipt, however, returns the same False
as a clean not-verified run (the distinction lives only in its
logging). -/
theorem C3_transport (net : List Char → NetResult) (tx_id verify_url : List Char) :
    (∀ u ∈ (verify_telebirr_receipt net tx_id verify_url).2, net u = NetResult.exn →
        (verify_telebirr_receipt net tx_id verify_url).1 = false ∧
        ∃ pre, (verify_telebirr_receipt net tx_id verify_url).2 = pre ++ [u]) ∧
    (∀ u ∈ (handle_photo net (some tx_id)).attempts, net u = NetResult.exn →
        (handle_photo net (some tx_id)).msgs = [Msg.processing, Msg.transportError] ∧
        ∃ pre, (handle_photo net (some tx_id)).attempts = pre ++ [u]) ∧
    Msg.transportError ≠ Msg.notVerified := by
  refine ⟨?_, ?_, by simp⟩
  · cases hn : net (pyFormat verify_url tx_id) with
    | exn =>
      simp only [verify_telebirr_receipt, hn]
      intro u hu hexn
      rw [List.mem_singleton] at hu
      subst hu
      exact ⟨by simp, [], by simp⟩
    | ok s b =>
      by_cases hs : (s == 200 && pyContains b SUCCESS_STRING) = true
      · simp only [verify_telebirr_receipt, hn, if_pos hs]
        intro u hu hexn
        rw [List.mem_singleton] at hu
        subst hu
        rw [hn] at hexn
        exact NetResult.noConfusion hexn
      · simp only [verify_telebirr_receipt, hn, if_neg hs]
        refine verifyOStep_exn net tx_id verify_url _ ?_
        intro v hv
        rw [List.mem_singleton] at hv
        subst hv
        rw [hn]
        intro hcon
        exact NetResult.noConfusion hcon
  · cases hn : net (pyFormat TELEBIRR_VERIFICATION_URL tx_id) with
    | exn =>
      simp only [handle_photo, hn]
      intro u hu hexn
      rw [List.mem_singleton] at hu
      subst hu
      exact ⟨by simp, [], by simp⟩
    | ok s b =>
      by_cases hs : (s == 200 && pyContains b SUCCESS_STRING) = true
      · simp only [handle_photo, hn, if_pos hs]
        intro u hu hexn
        rw [List.mem_singleton] at hu
        subst hu
        rw [hn] at hexn
        exact NetResult.noConfusion hexn
      · simp only [handle_photo, hn, if_neg hs]
        intro u hu hexn
        obtain ⟨hm, pre, hpre⟩ := photoOStep_exn net tx_id
          [pyFormat TELEBIRR_VERIFICATION_URL tx_id]
          (fun v hv => by
            rw [List.mem_singleton] at hv
            subst hv
            rw [hn]
            intro hcon
            exact NetResult.noConfusion hcon) u hu hexn
        exact ⟨by rw [hm], pre, hpre⟩

/-- Witness for the amended C3 with an oracle erroring on the first
attempt. -/
theorem C3_transport_witness :
    (handle_photo netExnAll (some wTxBoth)).msgs = [Msg.processing, Msg.transportError] ∧
    ∃ pre, (handle_photo netExnAll (some wTxBoth)).attempts =
      pre ++ [pyFormat TELEBIRR_VERIFICATION_URL wTxBoth] :=
  (C3_transport netExnAll wTxBoth TELEBIRR_VERIFICATION_URL).2.1
    (pyFormat TELEBIRR_VERIFICATION_URL wTxBoth) (by decide) rfl

/-- Counterexample to C4 as stated: for the raw id AB01O3 (containing
both O and 0) and an oracle that cleanly rejects every request, the
code makes three attempts, not at most two, and the third is the
0-to-O substitution applied to the original id — both in
verify_telebirr_receipt and in the photo handler. -/
theorem C4_counterexample :
    (verify_telebirr_receipt netFailAll wTxBoth TELEBIRR_VERIFICATION_URL).2.length = 3 ∧
    pyFormat TELEBIRR_VERIFICATION_URL (pyReplaceChar '0' 'O' wTxBoth) ∈
      (verify_telebirr_receipt netFailAll wTxBoth TELEBIRR_VERIFICATION_URL).2 ∧
    (handle_photo netFailAll (some wTxBoth)).attempts.length = 3 := by
  refine ⟨by decide, by decide, by decide⟩

/-- C4 (amended): for a raw id containing both O and 0, under an
error-free oracle the verification tries the raw id, then the O-to-0
variant, and — if both fail cleanly — additionally the 0-to-O
substitution on the original id, in that order, stopping at the first
success, for at most three attempts; the simultaneous
both-characters-swapped variant is never among the candidates. -/
theorem C4_both_chars (net : List Char → NetResult) (tx_id verify_url : List Char)
    (hnet : ∀ u, net u ≠ NetResult.exn) (hO : 'O' ∈ tx_id) (h0 : '0' ∈ tx_id) :
    (verify_telebirr_receipt net tx_id verify_url).2 =
      runNoErr net verify_url
        [tx_id, pyReplaceChar 'O' '0' tx_id, pyReplaceChar '0' 'O' tx_id] ∧
    (verify_telebirr_receipt net tx_id verify_url).2.length ≤ 3 ∧
    bothSwap tx_id ∉ [tx_id, pyReplaceChar 'O' '0' tx_id, pyReplaceChar '0' 'O' tx_id] := by
  have hrun := verify_noErr_run net tx_id verify_url hnet
  have hcand : candidates tx_id =
      [tx_id, pyReplaceChar 'O' '0' tx_id, pyReplaceChar '0' 'O' tx_id] := by
    simp [candidates, hO, h0]
  have h1 : bothSwap tx_id ≠ tx_id := by
    have := map_ne_of_mem (fun c => if c = 'O' then '0' else if c = '0' then 'O' else c)
      id 'O' (by decide) tx_id hO
    simpa [bothSwap, List.map_id] using this
  have h2 : bothSwap tx_id ≠ pyReplaceChar 'O' '0' tx_id :=
    map_ne_of_mem (fun c => if c = 'O' then '0' else if c = '0' then 'O' else c)
      (fun c => if c = 'O' then '0' else c) '0' (by decide) tx_id h0
  have h3 : bothSwap tx_id ≠ pyReplaceChar '0' 'O' tx_id :=
    map_ne_of_mem (fun c => if c = 'O' then '0' else if c = '0' then 'O' else c)
      (fun c => if c = '0' then 'O' else c) 'O' (by decide) tx_id hO
  refine ⟨by rw [hrun, hcand], ?_, by simp [h1, h2, h3]⟩
  rw [hrun, hcand]
  simpa using runNoErr_length_le net verify_url
    [tx_id, pyReplaceChar 'O' '0' tx_id, pyReplaceChar '0' 'O' tx_id]

/-- Witness for the amended C4 at the concrete both-characters id. -/
theorem C4_both_chars_witness :
    (verify_telebirr_receipt netFailAll wTxBoth TELEBIRR_VERIFICATION_URL).2 =
      runNoErr netFailAll TELEBIRR_VERIFICATION_URL
        [wTxBoth, pyReplaceChar 'O' '0' wTxBoth, pyReplaceChar '0' 'O' wTxBoth] ∧
    (verify_telebirr_receipt netFailAll wTxBoth TELEBIRR_VERIFICATION_URL).2.length ≤ 3 ∧
    bothSwap wTxBoth ∉ [wTxBoth, pyReplaceChar 'O' '0' wTxBoth, pyReplaceChar '0' 'O' wTxBoth] :=
  C4_both_chars netFailAll wTxBoth TELEBIRR_VERIFICATION_URL
    (fun u h => NetResult.noConfusion h) (by decide) (by decide)

end ReceiptChecker
